import Mathlib

/-!
Verification development for the `aliexpress-store-scraper` repository.

Each Python function relevant to the verified claims is shallowly embedded
as an executable Lean definition, translated directly from the source:

* `AliExpressClient._md5_hash`, `_generate_signature`, `generate_signature`,
  `_parse_jsonp_response`, `call_api`
  (src/aliexpress_store_scraper/clients/aliexpress_client.py);
* `EnhancedCookieGenerator.validate_cookies`, `is_session_expired`
  (src/cookie_generator.py);
* `StoreCredentialsNetworkScraper._load_cookies`, `_detect_image_format`,
  `_parse_jsonp_response`, `_scrape_single_store`, `scrape_store_credentials`
  and the CAPTCHA-counter helpers
  (src/aliexpress_store_scraper/processors/store_credentials_network_scraper.py).

Machine integers are modelled as `Nat`/`Int` with explicit reductions modulo
`2 ^ 32` (resp. `2 ^ 64`) where Python's `hashlib` semantics require them.
Python standard-library routines used by the source (`hashlib.md5`,
`base64.b64decode`, `json.loads`, the two concrete `re` patterns) are modelled
by executable Lean functions whose intended semantics is stated in their doc
comments.  Time stamps (`time.time()`) are passed explicitly as parameters.
-/

namespace AliScraper

/-! ## MD5 (model of Python `hashlib.md5`)

`_md5_hash` in aliexpress_client.py is
`hashlib.md5(text.encode("utf-8")).hexdigest().lower()`.
We embed the full MD5 algorithm (RFC 1321) over byte lists (`List Nat`,
each byte `< 256`), with 32-bit words represented as `Nat` reduced mod
`2 ^ 32`. -/

/-- Reduce a natural number to a 32-bit word. -/
def u32 (n : Nat) : Nat := n % 4294967296

/-- 32-bit left rotation. -/
def rotl32 (x s : Nat) : Nat := u32 ((x <<< s) ||| (x >>> (32 - s)))

/-- Bitwise complement on 32-bit words. -/
def not32 (x : Nat) : Nat := 4294967295 ^^^ x

/-- The 64 MD5 sine-derived round constants `K[i] = ⌊|sin(i+1)| · 2³²⌋`. -/
def md5K : List Nat := [
  3614090360, 3905402710, 606105819, 3250441966,
  4118548399, 1200080426, 2821735955, 4249261313,
  1770035416, 2336552879, 4294925233, 2304563134,
  1804603682, 4254626195, 2792965006, 1236535329,
  4129170786, 3225465664, 643717713, 3921069994,
  3593408605, 38016083, 3634488961, 3889429448,
  568446438, 3275163606, 4107603335, 1163531501,
  2850285829, 4243563512, 1735328473, 2368359562,
  4294588738, 2272392833, 1839030562, 4259657740,
  2763975236, 1272893353, 4139469664, 3200236656,
  681279174, 3936430074, 3572445317, 76029189,
  3654602809, 3873151461, 530742520, 3299628645,
  4096336452, 1126891415, 2878612391, 4237533241,
  1700485571, 2399980690, 4293915773, 2240044497,
  1873313359, 4264355552, 2734768916, 1309151649,
  4149444226, 3174756917, 718787259, 3951481745]

/-- The per-round left-rotation amounts of MD5. -/
def md5S : List Nat := [
  7, 12, 17, 22, 7, 12, 17, 22, 7, 12, 17, 22, 7, 12, 17, 22,
  5, 9, 14, 20, 5, 9, 14, 20, 5, 9, 14, 20, 5, 9, 14, 20,
  4, 11, 16, 23, 4, 11, 16, 23, 4, 11, 16, 23, 4, 11, 16, 23,
  6, 10, 15, 21, 6, 10, 15, 21, 6, 10, 15, 21, 6, 10, 15, 21]

/-- Little-endian byte decomposition of a natural number into `k` bytes. -/
def leBytes : Nat → Nat → List Nat
  | 0, _ => []
  | k + 1, n => (n % 256) :: leBytes k (n / 256)

/-- MD5 padding: append `0x80`, zero bytes up to 56 mod 64, then the
original bit length as 8 little-endian bytes (mod `2 ^ 64`). -/
def md5Pad (ms : List Nat) : List Nat :=
  let len := ms.length
  let zeros := (119 - len % 64) % 64
  ms ++ 128 :: List.replicate zeros 0 ++ leBytes 8 ((8 * len) % 18446744073709551616)

/-- Split a list into chunks of 64, consuming at most `fuel` chunks. -/
def chunks64 : Nat → List Nat → List (List Nat)
  | 0, _ => []
  | _ + 1, [] => []
  | fuel + 1, l => l.take 64 :: chunks64 fuel (l.drop 64)

/-- Read the `j`-th little-endian 32-bit word of a 64-byte chunk. -/
def chunkWord (chunk : List Nat) (j : Nat) : Nat :=
  chunk.getD (4 * j) 0 + 256 * chunk.getD (4 * j + 1) 0 +
    65536 * chunk.getD (4 * j + 2) 0 + 16777216 * chunk.getD (4 * j + 3) 0

/-- One MD5 round `i` (0 ≤ i < 64) acting on the state `(A, B, C, D)`. -/
def md5Round (chunk : List Nat) (st : Nat × Nat × Nat × Nat) (i : Nat) :
    Nat × Nat × Nat × Nat :=
  let (a, b, c, d) := st
  let fg : Nat × Nat :=
    if i < 16 then ((b &&& c) ||| (not32 b &&& d), i)
    else if i < 32 then ((d &&& b) ||| (not32 d &&& c), (5 * i + 1) % 16)
    else if i < 48 then (b ^^^ c ^^^ d, (3 * i + 5) % 16)
    else (c ^^^ (b ||| not32 d), (7 * i) % 16)
  let f := u32 (fg.1 + a + md5K.getD i 0 + chunkWord chunk fg.2)
  (d, u32 (b + rotl32 f (md5S.getD i 0)), b, c)

/-- Process one 64-byte chunk, updating the running MD5 state. -/
def md5Chunk (st : Nat × Nat × Nat × Nat) (chunk : List Nat) :
    Nat × Nat × Nat × Nat :=
  let (a0, b0, c0, d0) := st
  let (a, b, c, d) := (List.range 64).foldl (md5Round chunk) (a0, b0, c0, d0)
  (u32 (a0 + a), u32 (b0 + b), u32 (c0 + c), u32 (d0 + d))

/-- Serialize the final MD5 state as 16 output bytes (4 × 4, little-endian). -/
def md5Final (st : Nat × Nat × Nat × Nat) : List Nat :=
  leBytes 4 st.1 ++ leBytes 4 st.2.1 ++ leBytes 4 st.2.2.1 ++ leBytes 4 st.2.2.2

/-- MD5 digest of a byte list: 16 bytes. -/
def md5Bytes (ms : List Nat) : List Nat :=
  let padded := md5Pad ms
  md5Final <|
    (chunks64 padded.length padded).foldl md5Chunk
      (1732584193, 4023233417, 2562383102, 271733878)

/-- The sixteen lowercase hexadecimal digit characters. -/
def hexDigits : List Char := "0123456789abcdef".data

/-- Lowercase hex character of a nibble. -/
def hexChar (n : Nat) : Char := hexDigits.getD (n % 16) '0'

/-- Lowercase hexadecimal rendering of a byte list (`%02x` per byte),
modelling Python's `hexdigest()`. -/
def toHexString (bs : List Nat) : String :=
  ⟨bs.flatMap fun b => [hexChar (b / 16), hexChar (b % 16)]⟩

/-- Lowercase an ASCII character, modelling Python `str.lower` on the
ASCII output of `hexdigest()`. -/
def lowerAscii (c : Char) : Char :=
  if 'A' ≤ c ∧ c ≤ 'Z' then Char.ofNat (c.toNat + 32) else c

/-- Python `str.lower` on an ASCII string, character by character. -/
def pyLower (s : String) : String := ⟨s.data.map lowerAscii⟩

/-- UTF-8 encoding of one character, modelling Python `str.encode("utf-8")`. -/
def utf8Char (c : Char) : List Nat :=
  let n := c.toNat
  if n < 128 then [n]
  else if n < 2048 then [192 ||| (n >>> 6), 128 ||| (n &&& 63)]
  else if n < 65536 then
    [224 ||| (n >>> 12), 128 ||| ((n >>> 6) &&& 63), 128 ||| (n &&& 63)]
  else
    [240 ||| (n >>> 18), 128 ||| ((n >>> 12) &&& 63),
      128 ||| ((n >>> 6) &&& 63), 128 ||| (n &&& 63)]

/-- UTF-8 encoding of a string as a byte list. -/
def utf8Encode (s : String) : List Nat := s.data.flatMap utf8Char

/-- `AliExpressClient._md5_hash`:
`hashlib.md5(text.encode("utf-8")).hexdigest().lower()`. -/
def md5_hash (text : String) : String :=
  pyLower (toHexString (md5Bytes (utf8Encode text)))

/-- `AliExpressClient._generate_signature`:
`MD5(token + "&" + timestamp + "&" + appKey + "&" + data)` via `_md5_hash`
of the f-string `f"{token}&{timestamp}&{app_key}&{data}"`. -/
def generate_signature (token timestamp app_key data : String) : String :=
  md5_hash (token ++ "&" ++ timestamp ++ "&" ++ app_key ++ "&" ++ data)

/-! ## Cookie validation (src/cookie_generator.py)

`validate_cookies` parses the cookie string by splitting on `"; "`, keeping
entries containing `"="` (split once at the first `"="`), and checks the two
essential cookie names.  The Python dict is modelled as an association list
with assignment-overwrite semantics. -/

/-- Python dict assignment `d[k] = v`: overwrite the existing binding of `k`
or append a new one. -/
def dictAssign {α β : Type} [BEq α] (d : List (α × β)) (k : α) (v : β) : List (α × β) :=
  if d.any (fun kv => kv.1 == k) then
    d.map fun kv => if kv.1 == k then (k, v) else kv
  else d ++ [(k, v)]

/-- Membership of a key in the modelled dict (`k in d`). -/
def hasKey {α β : Type} [BEq α] (d : List (α × β)) (k : α) : Bool :=
  d.any fun kv => kv.1 == k

/-- Model of Python `str.split(sep)` for a non-empty separator, via fuel
(structural) recursion so the kernel can evaluate it.  `acc` holds the
current piece reversed. -/
def pySplitAux (sep : List Char) : Nat → List Char → List Char → List (List Char)
  | 0, l, acc => [acc.reverse ++ l]
  | fuel + 1, l, acc =>
    match l with
    | [] => [acc.reverse]
    | c :: rest =>
      if sep.isPrefixOf (c :: rest) then
        acc.reverse :: pySplitAux sep fuel ((c :: rest).drop sep.length) []
      else pySplitAux sep fuel rest (c :: acc)

/-- Python `s.split(sep)` (non-empty `sep`). -/
def pySplit (s sep : String) : List String :=
  (pySplitAux sep.data s.data.length s.data []).map fun cs => ⟨cs⟩

/-- The cookie-string parsing loop shared by `validate_cookies` (and the
client's `_extract_token_from_cookie`):
`for cookie in cookie_string.split("; "): if "=" in cookie: key, value =
cookie.split("=", 1); cookies_dict[key] = value`. -/
def parseCookieString (cookie_string : String) : List (String × String) :=
  (pySplit cookie_string "; ").foldl
    (fun d part =>
      if part.data.contains '=' then
        dictAssign d ⟨part.data.takeWhile (· ≠ '=')⟩
          ⟨(part.data.dropWhile (· ≠ '=')).drop 1⟩
      else d)
    []

/-- The `essential_cookies` constant of `validate_cookies`. -/
def essential_cookies : List String := ["_m_h5_tk", "_m_h5_tk_enc"]

/-- Result record of `validate_cookies`. -/
structure CookieValidation where
  valid : Bool
  total_cookies : Nat
  found_essential : List String
  missing_essential : List String
  has_auth_token : Bool
  deriving Repr, DecidableEq

/-- `EnhancedCookieGenerator.validate_cookies` (src/cookie_generator.py):
parse the cookie string, collect present/missing essential names in order,
and set `valid := len(missing_essential) == 0`. -/
def validate_cookies (cookie_string : String) : CookieValidation :=
  let d := parseCookieString cookie_string
  let found := essential_cookies.filter fun n => hasKey d n
  let missing := essential_cookies.filter fun n => !hasKey d n
  { valid := missing.length == 0
    total_cookies := d.length
    found_essential := found
    missing_essential := missing
    has_auth_token := hasKey d "_m_h5_tk" }

/-! ## Session expiry (src/cookie_generator.py `is_session_expired`)

`time.time()` is passed explicitly as `now`; the session dict's
`.get("timestamp", 0)` and `.get("cookies", "")` accesses are modelled by a
structure with an optional timestamp.  Epoch seconds are modelled as `Int`
(the source compares Python floats with `>=`). -/

/-- The fields of a cached session dict that `is_session_expired` reads. -/
structure SessionData where
  timestamp : Option Int
  cookies : String
  deriving Repr, DecidableEq

/-- `EnhancedCookieGenerator.is_session_expired`: true when no session is
given, when `now - cached_time >= cache_validity_seconds`, or when the
session's cookies fail `validate_cookies`. -/
def is_session_expired (cache_validity_seconds now : Int)
    (session_data : Option SessionData) : Bool :=
  match session_data with
  | none => true
  | some sd =>
    let cached_time := sd.timestamp.getD 0
    if now - cached_time ≥ cache_validity_seconds then true
    else if ¬ (validate_cookies sd.cookies).valid then true
    else false

/-! ## JSON values and a model of Python `json.loads`

The JSON values the scraper manipulates.  Numeric literals are modelled as
integers (`Int`); float literals are outside the model (the parser rejects
them), as is full surrogate-pair handling in `\u` escapes.  Python dicts
decoded from JSON are association lists in decode order. -/

inductive Json where
  | null
  | bool (b : Bool)
  | num (n : Int)
  | str (s : String)
  | arr (elems : List Json)
  | obj (fields : List (String × Json))

/-- JSON whitespace (also Python `\s` for the ASCII range used by the
regexes modelled below, plus form feed and vertical tab). -/
def isPySpace (c : Char) : Bool :=
  c = ' ' || c = '\t' || c = '\n' || c = '\r' || c = Char.ofNat 11 || c = Char.ofNat 12

/-- JSON inter-token whitespace per RFC 8259 (what `json.loads` skips). -/
def isJsonWs (c : Char) : Bool :=
  c = ' ' || c = '\t' || c = '\n' || c = '\r'

/-- Hex digit value of a character, if any. -/
def hexVal (c : Char) : Option Nat :=
  if '0' ≤ c ∧ c ≤ '9' then some (c.toNat - 48)
  else if 'a' ≤ c ∧ c ≤ 'f' then some (c.toNat - 87)
  else if 'A' ≤ c ∧ c ≤ 'F' then some (c.toNat - 70)
  else none

/-- Parse the body of a JSON string literal (after the opening quote),
returning the decoded characters and the remainder after the closing quote.
Strict mode: raw control characters are rejected, as are unknown escapes. -/
def parseJstr : Nat → List Char → Option (List Char × List Char)
  | 0, _ => none
  | _ + 1, [] => none
  | fuel + 1, c :: rest =>
    if c = '"' then some ([], rest)
    else if c = '\\' then
      match rest with
      | [] => none
      | e :: rest2 =>
        if e = '"' ∨ e = '\\' ∨ e = '/' then
          (parseJstr fuel rest2).map fun p => (e :: p.1, p.2)
        else if e = 'b' then (parseJstr fuel rest2).map fun p => (Char.ofNat 8 :: p.1, p.2)
        else if e = 'f' then (parseJstr fuel rest2).map fun p => (Char.ofNat 12 :: p.1, p.2)
        else if e = 'n' then (parseJstr fuel rest2).map fun p => ('\n' :: p.1, p.2)
        else if e = 'r' then (parseJstr fuel rest2).map fun p => ('\r' :: p.1, p.2)
        else if e = 't' then (parseJstr fuel rest2).map fun p => ('\t' :: p.1, p.2)
        else if e = 'u' then
          match rest2 with
          | h1 :: h2 :: h3 :: h4 :: rest3 =>
            match hexVal h1, hexVal h2, hexVal h3, hexVal h4 with
            | some v1, some v2, some v3, some v4 =>
              (parseJstr fuel rest3).map fun p =>
                (Char.ofNat (((v1 * 16 + v2) * 16 + v3) * 16 + v4) :: p.1, p.2)
            | _, _, _, _ => none
          | _ => none
        else none
    else if c.toNat < 32 then none
    else (parseJstr fuel rest).map fun p => (c :: p.1, p.2)

/-- Numeric value of a digit string. -/
def digitsVal (ds : List Char) : Nat :=
  ds.foldl (fun a c => 10 * a + (c.toNat - 48)) 0

/-- Parse an unsigned JSON integer literal (no leading zeros, no fraction or
exponent — float literals are outside the model). -/
def parseUIntLit (l : List Char) : Option (Nat × List Char) :=
  let ds := l.takeWhile Char.isDigit
  let rest := l.drop ds.length
  if ds.isEmpty then none
  else if ds.length > 1 ∧ ds.head? = some '0' then none
  else
    match rest with
    | c :: _ => if c = '.' ∨ c = 'e' ∨ c = 'E' then none else some (digitsVal ds, rest)
    | [] => some (digitsVal ds, [])

/-- Parse a JSON integer literal with optional leading minus sign. -/
def parseIntLit (l : List Char) : Option (Int × List Char) :=
  match l with
  | '-' :: rest => (parseUIntLit rest).map fun p => (-(p.1 : Int), p.2)
  | _ => (parseUIntLit l).map fun p => ((p.1 : Int), p.2)

mutual

/-- Parse one JSON value; fuel bounds the nesting recursion. -/
def pVal : Nat → List Char → Option (Json × List Char)
  | 0, _ => none
  | fuel + 1, l =>
    match l.dropWhile isJsonWs with
    | [] => none
    | c :: rest =>
      if c = '"' then
        (parseJstr (rest.length + 1) rest).map fun p => (Json.str ⟨p.1⟩, p.2)
      else if c = '\x7b' then
        match rest.dropWhile isJsonWs with
        | '\x7d' :: r => some (Json.obj [], r)
        | _ => (pMembers fuel rest).map fun p => (Json.obj p.1, p.2)
      else if c = '[' then
        match rest.dropWhile isJsonWs with
        | ']' :: r => some (Json.arr [], r)
        | _ => (pElems fuel rest).map fun p => (Json.arr p.1, p.2)
      else if c = 't' then
        if rest.take 3 = ['r', 'u', 'e'] then some (Json.bool true, rest.drop 3) else none
      else if c = 'f' then
        if rest.take 4 = ['a', 'l', 's', 'e'] then some (Json.bool false, rest.drop 4) else none
      else if c = 'n' then
        if rest.take 3 = ['u', 'l', 'l'] then some (Json.null, rest.drop 3) else none
      else if c = '-' ∨ c.isDigit then
        (parseIntLit (c :: rest)).map fun p => (Json.num p.1, p.2)
      else none

/-- Parse the members of a JSON object, starting at the first key, through
the closing brace. -/
def pMembers : Nat → List Char → Option (List (String × Json) × List Char)
  | 0, _ => none
  | fuel + 1, l =>
    match l.dropWhile isJsonWs with
    | '"' :: rest =>
      match parseJstr (rest.length + 1) rest with
      | some (k, r1) =>
        match r1.dropWhile isJsonWs with
        | ':' :: r2 =>
          match pVal fuel r2 with
          | some (v, r3) =>
            match r3.dropWhile isJsonWs with
            | ',' :: r4 => (pMembers fuel r4).map fun p => ((⟨k⟩, v) :: p.1, p.2)
            | '\x7d' :: r4 => some ([(⟨k⟩, v)], r4)
            | _ => none
          | none => none
        | _ => none
      | none => none
    | _ => none

/-- Parse the elements of a JSON array, starting at the first element,
through the closing bracket. -/
def pElems : Nat → List Char → Option (List Json × List Char)
  | 0, _ => none
  | fuel + 1, l =>
    match pVal fuel l with
    | some (v, r) =>
      match r.dropWhile isJsonWs with
      | ',' :: r2 => (pElems fuel r2).map fun p => (v :: p.1, p.2)
      | ']' :: r2 => some ([v], r2)
      | _ => none
    | none => none

end

/-- Model of `json.loads`: parse one JSON document with only whitespace
around it; `none` models a raised `JSONDecodeError`. -/
def jsonLoads (s : String) : Option Json :=
  match pVal (s.data.length + 2) s.data with
  | some (v, rest) => if (rest.dropWhile isJsonWs).isEmpty then some v else none
  | none => none

/-- Python truthiness of a decoded JSON value (`if parsed_data:`). -/
def Json.truthy : Json → Bool
  | .null => false
  | .bool b => b
  | .num n => n ≠ 0
  | .str s => !s.data.isEmpty
  | .arr xs => !xs.isEmpty
  | .obj fs => !fs.isEmpty

/-- Python dict lookup on a decoded JSON object (`d.get(key)`); on duplicate
keys the last binding wins, as in `json.loads`. -/
def lookupField : List (String × Json) → String → Option Json
  | [], _ => none
  | (k, v) :: rest, key =>
    match lookupField rest key with
    | some r => some r
    | none => if k = key then some v else none

/-- An apostrophe, built by code point to keep it out of string literals. -/
def squote : String := ⟨[Char.ofNat 39]⟩

mutual

/-- Python `repr` of a decoded JSON value (as used by `f"{ret_codes}"`).
String escaping inside `repr` is simplified: the content is emitted between
apostrophes verbatim, which matches Python for strings without quotes or
escapes. -/
def pyRepr : Json → String
  | .null => "None"
  | .bool true => "True"
  | .bool false => "False"
  | .num n => toString n
  | .str s => squote ++ s ++ squote
  | .arr xs => "[" ++ pyReprList xs ++ "]"
  | .obj fs => "\x7b" ++ pyReprFields fs ++ "\x7d"

/-- Comma-joined `repr`s of list elements. -/
def pyReprList : List Json → String
  | [] => ""
  | [x] => pyRepr x
  | x :: y :: rest => pyRepr x ++ ", " ++ pyReprList (y :: rest)

/-- Comma-joined `repr`s of dict items. -/
def pyReprFields : List (String × Json) → String
  | [] => ""
  | [kv] => squote ++ kv.1 ++ squote ++ ": " ++ pyRepr kv.2
  | kv :: kv2 :: rest =>
    squote ++ kv.1 ++ squote ++ ": " ++ pyRepr kv.2 ++ ", " ++ pyReprFields (kv2 :: rest)

end

/-- Python `str(code)` on a decoded JSON value: identity on strings,
`repr`-like otherwise. -/
def pyStrTop : Json → String
  | .str s => s
  | j => pyRepr j

/-- `needle in hay` (Python `in` on strings or bytes), on lists. -/
def containsSub {α : Type} [BEq α] : List α → List α → Bool
  | [], n => n.isEmpty
  | h :: t, n => n.isPrefixOf (h :: t) || containsSub t n

/-- Python `str.strip()` (ASCII whitespace). -/
def pyStrip (s : String) : String :=
  ⟨((s.data.dropWhile isPySpace).reverse.dropWhile isPySpace).reverse⟩

/-! ## JSONP parsing

Two regex-based parsers appear in the source.

`AliExpressClient._parse_jsonp_response` uses
`re.match(r"[^(]*\((.*)\)[^)]*$", response_text.strip())`.
Its backtracking semantics in closed form: the match succeeds iff the
stripped text contains a `'('` and, with `i` its first `'('` and `j` the
last `')'`, `i < j` and the slice between them contains no newline (`.`
does not match `'\n'` without `re.DOTALL`); the captured group is that
slice.  On success the group is fed to `json.loads`; a decode error returns
`None`.

`StoreCredentialsNetworkScraper._parse_jsonp_response` uses
`re.search(r"[a-zA-Z_][a-zA-Z0-9_]*\s*\(\s*({.*})\s*\)\s*;?", text, re.DOTALL)`.
Search is leftmost; at a viable start the word run, the whitespace runs and
the greedy `{.*}` are all maximal (the adjacent character classes are
disjoint, so no other backtracking outcome exists): the group runs from the
first `'{'` after the `'('` to the largest index `q` holding `'}'` that is
followed by optional whitespace and a `')'`.  On a match the group is fed to
`json.loads` (a decode error returns `None`, the fallback is not tried);
with no match, the text is parsed as direct JSON when it is brace-delimited
after stripping. -/

/-- `AliExpressClient._parse_jsonp_response`. -/
def parse_jsonp_client (response_text : String) : Option Json :=
  let s := (pyStrip response_text).data
  let pre := s.takeWhile (· ≠ '(')
  if pre.length = s.length then none
  else
    let afterParen := s.drop (pre.length + 1)
    let post := afterParen.reverse.takeWhile (· ≠ ')')
    if post.length = afterParen.length then none
    else
      let inner := afterParen.take (afterParen.length - post.length - 1)
      if inner.contains '\n' then none
      else jsonLoads ⟨inner⟩

/-- Word characters of the callback-name classes `[a-zA-Z0-9_]`. -/
def isWordChar (c : Char) : Bool := c.isAlpha || c.isDigit || c = '_'

/-- A callback identifier per the pattern `[a-zA-Z_][a-zA-Z0-9_]*`. -/
def isIdent (l : List Char) : Bool :=
  match l with
  | [] => false
  | c :: rest => (c.isAlpha || c = '_') && rest.all isWordChar

/-- Whether index `q` of `r` can close the greedy group `{.*}`:
`r[q] = '}'` followed by optional whitespace and `')'`. -/
def candIdx (r : List Char) (q : Nat) : Bool :=
  (r.getD q ' ' = '}') && (((r.drop (q + 1)).dropWhile isPySpace).head? = some ')')

/-- Largest `q < n` with `p q`, scanning downward. -/
def lastSatAux : Nat → (Nat → Bool) → Option Nat
  | 0, _ => none
  | n + 1, p => if p n then some n else lastSatAux n p

/-- Largest index of `r` that can close the greedy group. -/
def lastCloseIdx (r : List Char) : Option Nat :=
  lastSatAux r.length (candIdx r)

/-- Match the scraper's JSONP pattern anchored at the head of `l`,
returning the captured `{...}` group. -/
def matchFull (l : List Char) : Option (List Char) :=
  match l with
  | [] => none
  | c :: rest =>
    if c.isAlpha || c = '_' then
      let afterOpen := (rest.dropWhile isWordChar).dropWhile isPySpace
      if afterOpen.head? = some '(' then
        let r2 := afterOpen.tail.dropWhile isPySpace
        if r2.head? = some '\x7b' then
          match lastCloseIdx r2 with
          | some q => some (r2.take (q + 1))
          | none => none
        else none
      else none
    else none

/-- `re.search`: try the anchored match at each start, leftmost first. -/
def searchJsonp : List Char → Option (List Char)
  | [] => none
  | c :: t =>
    match matchFull (c :: t) with
    | some g => some g
    | none => searchJsonp t

/-- `StoreCredentialsNetworkScraper._parse_jsonp_response`. -/
def parse_jsonp_scraper (text_data : String) : Option Json :=
  match searchJsonp text_data.data with
  | some g => jsonLoads ⟨g⟩
  | none =>
    let st := (pyStrip text_data).data
    if st.head? = some '\x7b' ∧ st.getLast? = some '\x7d' then jsonLoads text_data
    else none

/-! ## `AliExpressClient.call_api` response processing

The network call itself is I/O; the embedding takes the HTTP response
(status code and body text) as input and models the result-building code of
`call_api` (the `result` dict and the 200/JSONP/`ret` logic).  The `except`
branch reached when the parsed value is not a dict or its `"ret"` value is
not a list (an `AttributeError`/`TypeError` inside the `try`) is modelled
with the exception text abstracted as `"exception"`. -/

/-- The fields of the `result` dict of `call_api` that the claims concern. -/
structure ApiResult where
  status_code : Nat
  success : Bool
  data : Option Json
  error : Option String

/-- The `except`-branch result of `call_api` (`status_code = 0`). -/
def callApiExcept : ApiResult :=
  { status_code := 0, success := false, data := none, error := some "exception" }

/-- `call_api` result construction from the HTTP response. -/
def call_api_response (status_code : Nat) (body : String) : ApiResult :=
  if status_code = 200 then
    match parse_jsonp_client body with
    | some parsed =>
      if parsed.truthy then
        match parsed with
        | Json.obj fields =>
          match (lookupField fields "ret").getD (Json.arr []) with
          | Json.arr ret_codes =>
            if ret_codes.any (fun c => containsSub (pyStrTop c).data "SUCCESS".data) then
              { status_code := status_code, success := true,
                data := some parsed, error := none }
            else
              { status_code := status_code, success := false, data := some parsed,
                error := some ("API error: " ++ pyRepr (Json.arr ret_codes)) }
          | _ => callApiExcept
        | _ => callApiExcept
      else
        { status_code := status_code, success := false, data := none,
          error := some "Failed to parse JSONP response" }
    | none =>
      { status_code := status_code, success := false, data := none,
        error := some "Failed to parse JSONP response" }
  else
    { status_code := status_code, success := false, data := none,
      error := some ("HTTP " ++ toString status_code ++ ": " ++ ⟨body.data.take 200⟩) }

/-! ## Image-format detection
(`StoreCredentialsNetworkScraper._detect_image_format`)

`base64.b64decode` (default, non-validating) is modelled as: discard
characters outside the base64 alphabet and `'='`, then decode complete
quads, a quad ending in padding terminating the data; a leftover partial
quad or misplaced padding is a `binascii.Error`, i.e. `none`.  (CPython
additionally ignores `'='` occurring in the first two positions of a quad;
that corner is modelled as an error — no claim depends on it.) -/

/-- Value of a standard-alphabet base64 character. -/
def b64Val (c : Char) : Option Nat :=
  if 'A' ≤ c ∧ c ≤ 'Z' then some (c.toNat - 65)
  else if 'a' ≤ c ∧ c ≤ 'z' then some (c.toNat - 71)
  else if '0' ≤ c ∧ c ≤ '9' then some (c.toNat + 4)
  else if c = '+' then some 62
  else if c = '/' then some 63
  else none

/-- Membership in the standard base64 alphabet (excluding padding). -/
def isB64Char (c : Char) : Bool := (b64Val c).isSome

/-- Decode filtered base64 characters quad by quad. -/
def b64Quads : List Char → Option (List Nat)
  | [] => some []
  | c1 :: c2 :: c3 :: c4 :: rest =>
    match b64Val c1, b64Val c2 with
    | some v1, some v2 =>
      if c3 = '=' then
        if c4 = '=' then some [(v1 <<< 2) ||| (v2 >>> 4)] else none
      else
        match b64Val c3 with
        | some v3 =>
          if c4 = '=' then
            some [(v1 <<< 2) ||| (v2 >>> 4), ((v2 &&& 15) <<< 4) ||| (v3 >>> 2)]
          else
            match b64Val c4 with
            | some v4 =>
              (b64Quads rest).map fun bs =>
                ((v1 <<< 2) ||| (v2 >>> 4)) :: (((v2 &&& 15) <<< 4) ||| (v3 >>> 2))
                  :: (((v3 &&& 3) <<< 6) ||| v4) :: bs
            | none => none
        | none => none
    | _, _ => none
  | _ => none

/-- Model of `base64.b64decode` on a string. -/
def b64decode (s : String) : Option (List Nat) :=
  b64Quads (s.data.filter fun c => isB64Char c || c = '=')

/-- The part after the first occurrence of `sub`, when `sub` occurs
(`s.split(sub, 1)[1]`). -/
def afterFirst (sub : List Char) : List Char → Option (List Char)
  | [] => if sub.isEmpty then some [] else none
  | c :: t =>
    if sub.isPrefixOf (c :: t) then some ((c :: t).drop sub.length)
    else afterFirst sub t

/-- The magic numbers checked by `_detect_image_format`. -/
def jpegMagic : List Nat := [255, 216, 255]

/-- PNG signature `\x89PNG\r\n\x1a\n`. -/
def pngMagic : List Nat := [137, 80, 78, 71, 13, 10, 26, 10]

/-- `GIF87a`. -/
def gif87Magic : List Nat := [71, 73, 70, 56, 55, 97]

/-- `GIF89a`. -/
def gif89Magic : List Nat := [71, 73, 70, 56, 57, 97]

/-- `RIFF`. -/
def riffMagic : List Nat := [82, 73, 70, 70]

/-- `WEBP`. -/
def webpTag : List Nat := [87, 69, 66, 80]

/-- `BM`. -/
def bmpMagic : List Nat := [66, 77]

/-- The magic-number cascade of `_detect_image_format` on decoded bytes. -/
def magicOf (decoded : List Nat) : Option String :=
  if jpegMagic.isPrefixOf decoded then some "jpeg"
  else if pngMagic.isPrefixOf decoded then some "png"
  else if gif87Magic.isPrefixOf decoded || gif89Magic.isPrefixOf decoded then some "gif"
  else if riffMagic.isPrefixOf decoded && containsSub decoded webpTag then some "webp"
  else if bmpMagic.isPrefixOf decoded then some "bmp"
  else none

/-- The group of `re.match(r"data:image/([^;]+);base64,", s)` applied to the
part of `s` after `data:image/`: a non-empty run without `';'` followed by
`";base64,"`. -/
def dataUrlFormat (l : List Char) : Option String :=
  let fmt := l.takeWhile (· ≠ ';')
  if fmt.isEmpty then none
  else if ";base64,".data.isPrefixOf (l.drop fmt.length) then some ⟨fmt⟩
  else none

/-- The magic-number fallback of `_detect_image_format`: strip everything up
to `"base64,"` when present, decode the first 20 characters, match magic
numbers; any decode error yields `None`. -/
def magicDetect (base64_data : String) : Option String :=
  let payload :=
    match afterFirst "base64,".data base64_data.data with
    | some rest => rest
    | none => base64_data.data
  match b64decode ⟨payload.take 20⟩ with
  | some decoded => magicOf decoded
  | none => none

/-- `StoreCredentialsNetworkScraper._detect_image_format`: a declared
`data:image/<fmt>;base64,` prefix wins; otherwise magic numbers on the
decoded leading bytes. -/
def detect_image_format (base64_data : String) : Option String :=
  if "data:image/".data.isPrefixOf base64_data.data then
    match dataUrlFormat (base64_data.data.drop 11) with
    | some fmt => some fmt
    | none => magicDetect base64_data
  else magicDetect base64_data

/-! ## Cookie-file loading
(`StoreCredentialsNetworkScraper._load_cookies`)

File-system state is passed explicitly: the file is absent, present but
unparseable, or parses to a JSON document.  `time.time()` is the `now`
parameter (epoch seconds as `Int`). -/

/-- The observable state of the cookies file. -/
inductive CookiesFile where
  | absent
  | unparseable
  | parsed (data : Json)

/-- Model of Python `int(float(s))`: optional sign, integer digits, optional
fractional digits (truncated toward zero).  Exponent notation, surrounding
whitespace and forms with no integer part (`".5"`) are outside the model. -/
def parsePyFloatInt (s : String) : Option Int :=
  let signed : Bool × List Char :=
    match s.data with
    | '-' :: t => (true, t)
    | '+' :: t => (false, t)
    | t => (false, t)
  let ds := signed.2.takeWhile Char.isDigit
  let rest := signed.2.drop ds.length
  if ds.isEmpty then none
  else
    let fracOk : Bool :=
      match rest with
      | [] => true
      | '.' :: fr => fr.all Char.isDigit
      | _ => false
    if fracOk then
      some (if signed.1 then -(digitsVal ds : Int) else (digitsVal ds : Int))
    else none

/-- The `expires` normalisation of `_load_cookies`: numbers pass through
(`int(...)`; Python booleans are ints), strings are parsed as
`int(float(s))`, anything else (or an unparseable string) becomes `-1`. -/
def expiresOf (cfields : List (String × Json)) : Int :=
  match lookupField cfields "expires" with
  | none => -1
  | some (Json.num n) => n
  | some (Json.bool b) => if b then 1 else 0
  | some (Json.str s) => (parsePyFloatInt s).getD (-1)
  | some _ => -1

/-- `StoreCredentialsNetworkScraper._load_cookies`: `none` for an absent or
malformed file; otherwise keep the cookies whose `expires` is `-1` or in
the future, and return `none` when none survive. -/
def load_cookies (now : Int) (file : CookiesFile) :
    Option (List (List (String × Json))) :=
  match file with
  | .absent => none
  | .unparseable => none
  | .parsed data =>
    match data with
    | Json.obj fields =>
      match lookupField fields "cookies" with
      | none => none
      | some (Json.arr items) =>
        let valid := items.filterMap fun item =>
          match item with
          | Json.obj cfields =>
            if expiresOf cfields = -1 ∨ expiresOf cfields > now then some cfields
            else none
          | _ => none
        if valid.isEmpty then none else some valid
      | some _ => none
    | _ => none

/-! ## Scraper orchestration
(`StoreCredentialsNetworkScraper`, store_credentials_network_scraper.py)

The browser, the page and the network are I/O; a scrape of one store is
driven by a `ScrapeScript`: the interception/CAPTCHA events the page
produces in order (capture keys are built as `store_id + suffix`, matching
`f"{store_id}_{...}"` in `_setup_request_interception` and the image-key
construction), an optional raised exception, and the final `response.status`
of the navigation.  The state carries the two capture tables
(`self.network_data`, `self.image_data`, Python dicts modelled as
association lists with assignment-overwrite), the CAPTCHA counter and
threshold, and instrumentation for `_restart_browser_session`: `restarts`
counts its calls and `generation` the fresh browser+context it installs.
`_restart_browser_session` is modelled as succeeding, and the
`_check_session_health` restart path as not firing (a fresh session opens a
page); captured payloads are abstracted to `Nat` identifiers. -/

/-- The mutable scraper state the claims concern. -/
structure ScraperState where
  network_data : List (List Char × Nat)
  image_data : List (List Char × Nat)
  captcha_failure_count : Nat
  max_captcha_attempts : Nat
  session_active : Bool
  restarts : Nat
  generation : Nat
  deriving Repr, DecidableEq

/-- `k.startswith(store_id)`. -/
def startsKey (pre k : List Char) : Bool := pre.isPrefixOf k

/-- `_should_restart_session`: `captcha_failure_count >= max_captcha_attempts`. -/
def should_restart_session (st : ScraperState) : Bool :=
  st.max_captcha_attempts ≤ st.captcha_failure_count

/-- `_increment_captcha_failure`. -/
def increment_captcha_failure (st : ScraperState) : ScraperState :=
  { st with captcha_failure_count := st.captcha_failure_count + 1 }

/-- `_reset_captcha_counter` (resets only when positive; same net effect). -/
def reset_captcha_counter (st : ScraperState) : ScraperState :=
  if st.captcha_failure_count > 0 then { st with captcha_failure_count := 0 } else st

/-- `_restart_browser_session`: close and relaunch browser+context
(generation bump), reset the CAPTCHA counter, mark the session active. -/
def restart_browser_session (st : ScraperState) : ScraperState :=
  { st with captcha_failure_count := 0,
            session_active := true,
            restarts := st.restarts + 1,
            generation := st.generation + 1 }

/-- One event produced by the page during `_scrape_single_store`. -/
inductive ScrapeEv where
  | netCapture (suffix : List Char) (v : Nat)
  | imgCapture (suffix : List Char) (v : Nat)
  | captchaSolved
  | captchaFailed
  | raised (msg : String)
  deriving Repr, DecidableEq

/-- The scripted behaviour of one navigation attempt. -/
structure ScrapeScript where
  events : List ScrapeEv
  status : Nat
  deriving Repr, DecidableEq

/-- Apply a non-exception event to the state. -/
def applyEv (store_id : List Char) (st : ScraperState) : ScrapeEv → ScraperState
  | .netCapture suf v =>
    { st with network_data := dictAssign st.network_data (store_id ++ suf) v }
  | .imgCapture suf v =>
    { st with image_data := dictAssign st.image_data (store_id ++ suf) v }
  | .captchaSolved => reset_captcha_counter st
  | .captchaFailed => increment_captcha_failure st
  | .raised _ => st

/-- Run the page events in order until an exception is raised. -/
def runEvents (store_id : List Char) (st : ScraperState) :
    List ScrapeEv → ScraperState × Option String
  | [] => (st, none)
  | ev :: rest =>
    match ev with
    | .raised msg => (st, some msg)
    | _ => runEvents store_id (applyEv store_id st ev) rest

/-- The fields of `_scrape_single_store`'s result dict the claims concern. -/
structure ScrapeResult where
  store_id : List Char
  status : String
  network_data : List (List Char × Nat)
  images : List (List Char × Nat)
  error : Option String
  deriving Repr, DecidableEq

/-- The stale-entry clearing at the start of `_scrape_single_store`
(lines 1016–1029): delete every capture-table and image-table entry whose
key starts with `store_id`. -/
def clearStore (store_id : List Char) (st : ScraperState) : ScraperState :=
  { st with network_data :=
              st.network_data.filter fun kv => !(startsKey store_id kv.1),
            image_data :=
              st.image_data.filter fun kv => !(startsKey store_id kv.1) }

/-- The result dict `_scrape_single_store` builds from the post-run state
and the outcome: an exception is caught and yields status `"error"` with
`network_data` and `images` as initialised — empty; a 200 response snapshots
the entries whose key starts with `store_id`. -/
def scrapeResultOf (store_id : List Char) (status : Nat) (st : ScraperState) :
    Option String → ScrapeResult
  | some msg =>
    { store_id := store_id, status := "error", network_data := [], images := [],
      error := some msg }
  | none =>
    if status = 200 then
      { store_id := store_id, status := "success",
        network_data := st.network_data.filter fun kv => startsKey store_id kv.1,
        images := st.image_data.filter fun kv => startsKey store_id kv.1,
        error := none }
    else
      { store_id := store_id, status := "error", network_data := [], images := [],
        error := some ("HTTP " ++ toString status ++ ": Failed to load page") }

/-- `_scrape_single_store`: clear the stale entries for this store, run the
page, and assemble the result. -/
def scrape_single_store (store_id : List Char) (script : ScrapeScript)
    (st0 : ScraperState) : ScrapeResult × ScraperState :=
  let run := runEvents store_id (clearStore store_id st0) script.events
  (scrapeResultOf store_id script.status run.1 run.2, run.1)

/-- The session check at the top of each `scrape_store_credentials`
iteration: restart when the CAPTCHA threshold is reached. -/
def sessionCheckPhase (st : ScraperState) : ScraperState :=
  if should_restart_session st then restart_browser_session st else st

/-- The retry loop of `scrape_store_credentials` for one store: try the
scripted attempts until one succeeds (resetting the CAPTCHA counter on
success); the last attempt's result is kept. -/
def runAttempts (store_id : List Char) :
    List ScrapeScript → ScraperState → ScraperState × Option ScrapeResult
  | [], st => (st, none)
  | sc :: rest, st =>
    let p := scrape_single_store store_id sc st
    if p.1.status == "success" then (reset_captcha_counter p.2, some p.1)
    else
      match rest with
      | [] => (p.2, some p.1)
      | _ :: _ => runAttempts store_id rest p.2

/-- Per-target processing of `scrape_store_credentials`: session check,
then the retry loop. -/
def processTarget (store_id : List Char) (scripts : List ScrapeScript)
    (st : ScraperState) : ScraperState × Option ScrapeResult :=
  runAttempts store_id scripts (sessionCheckPhase st)

/-- The batch loop of `scrape_store_credentials` over the scripted targets,
appending each target's result and continuing to the next target. -/
def scrape_store_credentials
    (targets : List (List Char × List ScrapeScript)) (st : ScraperState) :
    ScraperState × List ScrapeResult :=
  match targets with
  | [] => (st, [])
  | (sid, scripts) :: rest =>
    let p := processTarget sid scripts st
    let q := scrape_store_credentials rest p.1
    (q.1, match p.2 with
          | some r => r :: q.2
          | none => q.2)

/-- An empty scraper state with threshold 3 (the default
`max_captcha_attempts`). -/
def freshState : ScraperState :=
  { network_data := [], image_data := [], captcha_failure_count := 0,
    max_captcha_attempts := 3, session_active := true, restarts := 0,
    generation := 0 }

/-- A scripted scrape in which two certificate images and one API response
are captured and then the credential parse raises, mid-scrape. -/
def c3Script : ScrapeScript :=
  { events := [ScrapeEv.imgCapture "_certificate_1".data 1,
               ScrapeEv.imgCapture "_certificate_2".data 2,
               ScrapeEv.netCapture "_api_credential".data 3,
               ScrapeEv.raised "credential parse failed"],
    status := 200 }

/-- A state holding a capture previously made for store `12_api` (a store id
of which `12` is a proper prefix). -/
def c10State : ScraperState :=
  { freshState with network_data := [("12_api_100".data, 7)] }

/-- A scripted scrape of store `12` capturing one API response whose key
suffix makes the full key start with `12_api`. -/
def c10Script : ScrapeScript :=
  { events := [ScrapeEv.netCapture "_api_200".data 9], status := 200 }

/-! ## Theorems -/

theorem leBytes_length (k n : Nat) : (leBytes k n).length = k := by
  induction k generalizing n with
  | zero => rfl
  | succ k ih => simp [leBytes, ih]

theorem md5Bytes_length (ms : List Nat) : (md5Bytes ms).length = 16 := by
  simp [md5Bytes, md5Final, leBytes_length]

theorem hexChar_mem (n : Nat) : hexChar n ∈ hexDigits := by
  have h16 : n % 16 < hexDigits.length := Nat.mod_lt _ (by simp [hexDigits])
  rw [hexChar, List.getD_eq_getElem _ _ h16]
  exact List.getElem_mem h16

theorem lowerAscii_hex : ∀ c ∈ hexDigits, lowerAscii c = c := by decide

theorem hexData_length (bs : List Nat) :
    (bs.flatMap fun b => [hexChar (b / 16), hexChar (b % 16)]).length = 2 * bs.length := by
  induction bs with
  | nil => rfl
  | cons b bs ih => simp [List.flatMap_cons, ih]; omega

theorem md5_hash_length (s : String) : (md5_hash s).length = 32 := by
  show (md5_hash s).data.length = 32
  simp only [md5_hash, pyLower, toHexString, List.length_map]
  rw [hexData_length, md5Bytes_length]

theorem md5_hash_chars (s : String) : ∀ c ∈ (md5_hash s).data, c ∈ hexDigits := by
  intro c hc
  simp only [md5_hash, pyLower, toHexString] at hc
  rcases List.mem_map.mp hc with ⟨a, ha, rfl⟩
  rcases List.mem_flatMap.mp ha with ⟨b, _, hab⟩
  simp only [List.mem_cons, List.mem_singleton, List.not_mem_nil, or_false] at hab
  rcases hab with rfl | rfl <;>
    (rw [lowerAscii_hex _ (hexChar_mem _)]; exact hexChar_mem _)

/-- C1: `generate_signature` returns the lowercase hexadecimal MD5 digest of
`token ++ "&" ++ timestamp ++ "&" ++ appKey ++ "&" ++ payload`; the result is
a 32-character string over the lowercase hex alphabet, and the function is
pure and deterministic (equal inputs give equal signatures). -/
theorem c1_generate_signature_spec (token ts app_key data : String) :
    generate_signature token ts app_key data
        = md5_hash (token ++ "&" ++ ts ++ "&" ++ app_key ++ "&" ++ data)
      ∧ (generate_signature token ts app_key data).length = 32
      ∧ (∀ c ∈ (generate_signature token ts app_key data).data, c ∈ hexDigits)
      ∧ ∀ t2 ts2 k2 d2, token = t2 → ts = ts2 → app_key = k2 → data = d2 →
          generate_signature token ts app_key data = generate_signature t2 ts2 k2 d2 := by
  refine ⟨rfl, md5_hash_length _, md5_hash_chars _, ?_⟩
  rintro t2 ts2 k2 d2 rfl rfl rfl rfl
  rfl

theorem validate_valid_iff (s : String) :
    (validate_cookies s).valid = true ↔ (validate_cookies s).missing_essential = [] := by
  simp [validate_cookies, List.length_eq_zero]

/-- C4 (amended): `validate_cookies` is valid iff zero of the required cookie
names are missing (the tolerance in the code is 0, not 2): valid iff both
`_m_h5_tk` and `_m_h5_tk_enc` are present, and the result lists exactly the
missing and the present required names. -/
theorem c4_validate_cookies_amended (s : String) :
    ((validate_cookies s).valid = true ↔
      (hasKey (parseCookieString s) "_m_h5_tk" = true
        ∧ hasKey (parseCookieString s) "_m_h5_tk_enc" = true))
    ∧ (∀ n, n ∈ (validate_cookies s).missing_essential ↔
        n ∈ essential_cookies ∧ hasKey (parseCookieString s) n = false)
    ∧ (∀ n, n ∈ (validate_cookies s).found_essential ↔
        n ∈ essential_cookies ∧ hasKey (parseCookieString s) n = true)
    ∧ ((validate_cookies s).valid = true ↔
        (validate_cookies s).missing_essential = []) := by
  refine ⟨?_, ?_, ?_, validate_valid_iff s⟩
  · cases h1 : hasKey (parseCookieString s) "_m_h5_tk" <;>
      cases h2 : hasKey (parseCookieString s) "_m_h5_tk_enc" <;>
        simp [validate_cookies, essential_cookies, h1, h2]
  · intro n
    simp [validate_cookies, List.mem_filter]
  · intro n
    simp [validate_cookies, List.mem_filter]

/-- C4 counterexample: a cookie set missing exactly one required name
(`_m_h5_tk_enc`) — within the claimed tolerance of "at most 2 missing" — is
nevertheless reported invalid by the code. -/
theorem c4_counterexample :
    ¬ ((validate_cookies "_m_h5_tk=abc").missing_essential.length ≤ 2 →
        (validate_cookies "_m_h5_tk=abc").valid = true) := by
  decide

/-- C7: `is_session_expired` is true iff the session's age reaches the
validity window or a required cookie name is missing; it is false at age zero
with required cookies present and a positive window, and it is monotone in
the current time for a fixed session. -/
theorem c7_is_session_expired_spec (window now : Int) (sd : SessionData) :
    (is_session_expired window now (some sd) = true ↔
      (now - sd.timestamp.getD 0 ≥ window
        ∨ (validate_cookies sd.cookies).missing_essential ≠ []))
    ∧ (0 < window → (validate_cookies sd.cookies).valid = true →
        is_session_expired window (sd.timestamp.getD 0) (some sd) = false)
    ∧ (∀ later, now ≤ later → is_session_expired window now (some sd) = true →
        is_session_expired window later (some sd) = true) := by
  refine ⟨?_, ?_, ?_⟩
  · by_cases h1 : now - sd.timestamp.getD 0 ≥ window
    · simp [is_session_expired, h1]
    · by_cases h2 : (validate_cookies sd.cookies).valid = true
      · have heq := (validate_valid_iff sd.cookies).mp h2
        simp [is_session_expired, h1, h2, heq]
      · have hne := mt (validate_valid_iff sd.cookies).mpr h2
        simp [is_session_expired, h1, h2, hne]
  · intro hw hv
    simp only [is_session_expired]
    rw [if_neg (by omega), if_neg (by simp [hv])]
  · intro later hle h1
    by_cases hv : (validate_cookies sd.cookies).valid = true
    · by_cases g1 : now - sd.timestamp.getD 0 ≥ window
      · have g2 : later - sd.timestamp.getD 0 ≥ window := by omega
        simp [is_session_expired, g2]
      · simp [is_session_expired, g1, hv] at h1
    · simp [is_session_expired, hv]

theorem dropWhile_append_all {p : Char → Bool} {l₁ : List Char} (l₂ : List Char)
    (h : ∀ c ∈ l₁, p c = true) :
    (l₁ ++ l₂).dropWhile p = l₂.dropWhile p := by
  induction l₁ with
  | nil => rfl
  | cons c t ih =>
    simp only [List.cons_append, List.dropWhile_cons, h c (List.mem_cons_self c t)]
    exact ih fun x hx => h x (List.mem_cons_of_mem c hx)

theorem dropWhile_cons_neg {p : Char → Bool} {c : Char} (l : List Char)
    (h : p c = false) : (c :: l).dropWhile p = c :: l := by
  simp [List.dropWhile_cons, h]

theorem getD_append_len (l : List Char) (a d : Char) : (l ++ [a]).getD l.length d = a := by
  rw [List.getD_eq_getElem?_getD, List.getElem?_concat_length]
  rfl

theorem getD_append_lt (l l₂ : List Char) (m : Nat) (d : Char) (h : m < l.length) :
    (l ++ l₂).getD m d = l.getD m d := by
  rw [List.getD_eq_getElem?_getD, List.getD_eq_getElem?_getD, List.getElem?_append]
  simp [h]

/-- `matchFull` on an identifier-wrapped brace-delimited body captures
exactly the body. -/
theorem matchFull_wrapper (cb j : List Char)
    (hid : isIdent cb = true)
    (hj1 : j.head? = some '\x7b') (hj2 : j.getLast? = some '\x7d') :
    matchFull (cb ++ '(' :: (j ++ [')'])) = some j := by
  obtain ⟨c, cbTail, rfl⟩ : ∃ c t, cb = c :: t := by
    cases cb with
    | nil => simp [isIdent] at hid
    | cons c t => exact ⟨c, t, rfl⟩
  rw [isIdent] at hid
  obtain ⟨hc, hall⟩ := Bool.and_eq_true_iff.mp hid
  obtain ⟨jh, jt, rfl⟩ : ∃ jh jt, j = jh :: jt := by
    cases j with
    | nil => simp at hj1
    | cons jh jt => exact ⟨jh, jt, rfl⟩
  have hjh : jh = '\x7b' := by simpa using hj1
  subst hjh
  have h1 : (cbTail ++ '(' :: '\x7b' :: (jt ++ [')'])).dropWhile isWordChar
      = '(' :: '\x7b' :: (jt ++ [')']) := by
    rw [dropWhile_append_all _ (List.all_eq_true.mp hall)]
    exact dropWhile_cons_neg _ (by decide)
  have h2 : ('(' :: '\x7b' :: (jt ++ [')'])).dropWhile isPySpace
      = '(' :: '\x7b' :: (jt ++ [')']) := dropWhile_cons_neg _ (by decide)
  have h3 : ('\x7b' :: (jt ++ [')'])).dropWhile isPySpace
      = '\x7b' :: (jt ++ [')']) := dropWhile_cons_neg _ (by decide)
  have hcand1 : candIdx ('\x7b' :: (jt ++ [')'])) (jt.length + 1) = false := by
    rw [candIdx]
    have hg : ('\x7b' :: (jt ++ [')'])).getD (jt.length + 1) ' ' = ')' := by
      have := getD_append_len ('\x7b' :: jt) ')' ' '
      simpa using this
    simp [hg]
  have hcand2 : candIdx ('\x7b' :: (jt ++ [')'])) jt.length = true := by
    rw [candIdx]
    have hg : ('\x7b' :: (jt ++ [')'])).getD jt.length ' ' = '\x7d' := by
      have hlt := getD_append_lt ('\x7b' :: jt) [')'] jt.length ' ' (by simp)
      rw [List.cons_append] at hlt
      have hj2' : ('\x7b' :: jt)[jt.length]? = some '\x7d' := by
        have hgl := List.getLast?_eq_getElem? ('\x7b' :: jt)
        rw [hj2] at hgl
        simpa using hgl.symm
      rw [hlt, List.getD_eq_getElem?_getD, hj2']
      rfl
    have hd : ('\x7b' :: (jt ++ [')'])).drop (jt.length + 1) = [')'] := by
      have := List.drop_left ('\x7b' :: jt) [')']
      simpa using this
    rw [hg, hd]
    decide
  have hclose : lastCloseIdx ('\x7b' :: (jt ++ [')'])) = some jt.length := by
    have hlen : ('\x7b' :: (jt ++ [')'])).length = jt.length + 2 := by simp
    rw [lastCloseIdx, hlen, lastSatAux, hcand1, if_neg (by simp), lastSatAux,
      hcand2, if_pos rfl]
  have htake : ('\x7b' :: (jt ++ [')'])).take (jt.length + 1) = '\x7b' :: jt := by
    have := List.take_left ('\x7b' :: jt) [')']
    simpa using this
  show matchFull (c :: (cbTail ++ '(' :: '\x7b' :: (jt ++ [')']))) = some ('\x7b' :: jt)
  simp only [matchFull, if_pos hc, h1, h2, h3, hclose, htake, List.head?_cons,
    List.tail_cons, Option.some.injEq, if_pos]

/-- `re.search` finds the wrapper anchored at position 0. -/
theorem searchJsonp_wrapper (cb j : List Char)
    (hid : isIdent cb = true)
    (hj1 : j.head? = some '\x7b') (hj2 : j.getLast? = some '\x7d') :
    searchJsonp (cb ++ '(' :: (j ++ [')'])) = some j := by
  obtain ⟨c, t, rfl⟩ : ∃ c t, cb = c :: t := by
    cases cb with
    | nil => simp [isIdent] at hid
    | cons c t => exact ⟨c, t, rfl⟩
  have hm := matchFull_wrapper (c :: t) j hid hj1 hj2
  rw [List.cons_append] at hm ⊢
  rw [searchJsonp, hm]

theorem candIdx_false_of_no_close {r : List Char} (h : ')' ∉ r) (q : Nat) :
    candIdx r q = false := by
  rw [candIdx]
  cases hm : ((r.drop (q + 1)).dropWhile isPySpace).head? with
  | none => simp [hm]
  | some hd =>
    have hmem : hd ∈ r := by
      have h1 : hd ∈ (r.drop (q + 1)).dropWhile isPySpace := by
        have hcons := List.eq_cons_of_mem_head?
          (l := (r.drop (q + 1)).dropWhile isPySpace) (x := hd) (by rw [hm]; rfl)
        rw [hcons]
        exact List.mem_cons_self _ _
      exact (List.drop_sublist ..).mem ((List.dropWhile_sublist _).mem h1)
    have hhd : hd ≠ ')' := fun he => h (he ▸ hmem)
    simp [hm, hhd]

theorem lastSatAux_none (p : Nat → Bool) (h : ∀ q, p q = false) (n : Nat) :
    lastSatAux n p = none := by
  induction n with
  | zero => rfl
  | succ n ih =>
    rw [lastSatAux, h n]
    simpa using ih

theorem matchFull_none {l : List Char} (h : ')' ∉ l) : matchFull l = none := by
  cases l with
  | nil => rfl
  | cons c rest =>
    simp only [matchFull]
    by_cases hc : (c.isAlpha || c = '_') = true
    · rw [if_pos hc]
      by_cases h1 : ((rest.dropWhile isWordChar).dropWhile isPySpace).head? = some '('
      · rw [if_pos h1]
        by_cases h2 :
            (((rest.dropWhile isWordChar).dropWhile
              isPySpace).tail.dropWhile isPySpace).head? = some '\x7b'
        · rw [if_pos h2]
          have hsub : List.Sublist
              (((rest.dropWhile isWordChar).dropWhile
                isPySpace).tail.dropWhile isPySpace) rest :=
            ((List.dropWhile_sublist _).trans (List.tail_sublist _)).trans
              ((List.dropWhile_sublist _).trans (List.dropWhile_sublist _))
          have hnr : ')' ∉ ((rest.dropWhile isWordChar).dropWhile
              isPySpace).tail.dropWhile isPySpace :=
            fun hmem => h (List.mem_cons_of_mem c (hsub.mem hmem))
          rw [lastCloseIdx, lastSatAux_none _ (candIdx_false_of_no_close hnr)]
        · rw [if_neg h2]
      · rw [if_neg h1]
    · rw [if_neg hc]

theorem searchJsonp_none {l : List Char} (h : ')' ∉ l) : searchJsonp l = none := by
  induction l with
  | nil => rfl
  | cons c t ih =>
    rw [searchJsonp, matchFull_none h]
    exact ih fun hm => h (List.mem_cons_of_mem c hm)

theorem parse_jsonp_scraper_wrapper (cb j : String)
    (hid : isIdent cb.data = true)
    (hj1 : j.data.head? = some '\x7b') (hj2 : j.data.getLast? = some '\x7d') :
    parse_jsonp_scraper (cb ++ "(" ++ j ++ ")") = jsonLoads j := by
  have hdata : (cb ++ "(" ++ j ++ ")").data = cb.data ++ '(' :: (j.data ++ [')']) := by
    simp [String.data_append]
  simp only [parse_jsonp_scraper]
  rw [hdata, searchJsonp_wrapper _ _ hid hj1 hj2]

/-- C6: the scraper's JSONP parser returns the parsed inner JSON object of
any `callbackName({...})` text, returns `None` (no-parse) when the inner
JSON is invalid or when the wrapper has no closing parenthesis (and the text
is not itself brace-delimited JSON), and — being a total function into
`Option` — never raises.  Concretely, `foo({"a":1})` yields `{"a":1}`. -/
theorem c6_jsonp_parser_spec :
    (∀ cb j v, isIdent cb.data = true → j.data.head? = some '\x7b' →
        j.data.getLast? = some '\x7d' → jsonLoads j = some v →
        parse_jsonp_scraper (cb ++ "(" ++ j ++ ")") = some v)
    ∧ (∀ cb j, isIdent cb.data = true → j.data.head? = some '\x7b' →
        j.data.getLast? = some '\x7d' → jsonLoads j = none →
        parse_jsonp_scraper (cb ++ "(" ++ j ++ ")") = none)
    ∧ (∀ t : String, ')' ∉ t.data →
        ¬ ((pyStrip t).data.head? = some '\x7b'
            ∧ (pyStrip t).data.getLast? = some '\x7d') →
        parse_jsonp_scraper t = none)
    ∧ parse_jsonp_scraper "foo(\x7b\"a\":1\x7d)" = some (Json.obj [("a", Json.num 1)]) := by
  refine ⟨?_, ?_, ?_, rfl⟩
  · intro cb j v hid h1 h2 hv
    rw [parse_jsonp_scraper_wrapper cb j hid h1 h2, hv]
  · intro cb j hid h1 h2 hv
    rw [parse_jsonp_scraper_wrapper cb j hid h1 h2, hv]
  · intro t hnp hbr
    simp only [parse_jsonp_scraper]
    rw [searchJsonp_none hnp, if_neg hbr]

/-- C9 (amended): for an HTTP-200 response whose JSONP body parses to a
non-empty JSON object (Python truthiness: an empty object is treated as a
parse failure), `call_api` sets `success` iff some entry of the `ret` array
contains `"SUCCESS"`, and otherwise records the `ret` codes in `error`
while keeping `status_code = 200`. -/
theorem c9_call_api_ret_amended (status : Nat) (body : String)
    (fields : List (String × Json)) (ret_codes : List Json) :
    status = 200 →
    parse_jsonp_client body = some (Json.obj fields) →
    fields ≠ [] →
    (lookupField fields "ret").getD (Json.arr []) = Json.arr ret_codes →
    ((call_api_response status body).success = true ↔
        ∃ c ∈ ret_codes, containsSub (pyStrTop c).data "SUCCESS".data = true)
    ∧ ((∀ c ∈ ret_codes, containsSub (pyStrTop c).data "SUCCESS".data = false) →
        (call_api_response status body).success = false
        ∧ (call_api_response status body).error
            = some ("API error: " ++ pyRepr (Json.arr ret_codes)))
    ∧ (call_api_response status body).status_code = 200 := by
  intro h200 hparse hne hret
  subst h200
  have htr : (Json.obj fields).truthy = true := by
    cases fields with
    | nil => exact absurd rfl hne
    | cons a t => rfl
  simp only [call_api_response, if_pos rfl, hparse, htr, if_pos, hret]
  by_cases hany :
      (ret_codes.any fun c => containsSub (pyStrTop c).data "SUCCESS".data) = true
  · rw [if_pos hany]
    refine ⟨iff_of_true rfl (by simpa using List.any_eq_true.mp hany), ?_, rfl⟩
    intro hall
    obtain ⟨c, hc, hpc⟩ := List.any_eq_true.mp hany
    rw [hall c hc] at hpc
    cases hpc
  · rw [if_neg hany]
    refine ⟨iff_of_false (by simp) ?_, fun _ => ⟨rfl, rfl⟩, rfl⟩
    intro hex
    exact hany (List.any_eq_true.mpr (by simpa using hex))

/-- Witness for C9's amended theorem at a concrete failing `ret`. -/
theorem c9_call_api_ret_amended_witness :
    (call_api_response 200
        "mtopjsonp7(\x7b\"ret\":[\"FAIL_SYS_TOKEN_EMPTY::req\"]\x7d)").success = false
    ∧ (call_api_response 200
        "mtopjsonp7(\x7b\"ret\":[\"FAIL_SYS_TOKEN_EMPTY::req\"]\x7d)").error
      = some ("API error: "
          ++ pyRepr (Json.arr [Json.str "FAIL_SYS_TOKEN_EMPTY::req"])) :=
  (c9_call_api_ret_amended 200
      "mtopjsonp7(\x7b\"ret\":[\"FAIL_SYS_TOKEN_EMPTY::req\"]\x7d)"
      [("ret", Json.arr [Json.str "FAIL_SYS_TOKEN_EMPTY::req"])]
      [Json.str "FAIL_SYS_TOKEN_EMPTY::req"]
      rfl rfl (List.cons_ne_nil _ _) rfl).2.1 (by decide)

/-- C9 counterexample: with status 200 and body `mtopjsonp7({})` the JSONP
body parses to the (empty) JSON object and no `ret` entry contains
`"SUCCESS"`, yet `call_api` records `"Failed to parse JSONP response"` —
not the `ret` codes — in `error`, because an empty dict is falsy in Python. -/
theorem c9_counterexample :
    parse_jsonp_client "mtopjsonp7(\x7b\x7d)" = some (Json.obj [])
    ∧ (call_api_response 200 "mtopjsonp7(\x7b\x7d)").success = false
    ∧ (call_api_response 200 "mtopjsonp7(\x7b\x7d)").error
        = some "Failed to parse JSONP response"
    ∧ (call_api_response 200 "mtopjsonp7(\x7b\x7d)").error
        ≠ some ("API error: " ++ pyRepr (Json.arr [])) := by
  refine ⟨rfl, rfl, rfl, ?_⟩
  decide

theorem takeWhile_append_all {p : Char → Bool} {l₁ : List Char} (l₂ : List Char)
    (h : ∀ c ∈ l₁, p c = true) :
    (l₁ ++ l₂).takeWhile p = l₁ ++ l₂.takeWhile p := by
  induction l₁ with
  | nil => rfl
  | cons c t ih =>
    simp only [List.cons_append, List.takeWhile_cons, h c (List.mem_cons_self c t)]
    exact congrArg (c :: ·) (ih fun x hx => h x (List.mem_cons_of_mem c hx))

theorem afterFirst_some_mem {sub l r : List Char}
    (h : afterFirst sub l = some r) : ∀ c ∈ sub, c ∈ l := by
  induction l with
  | nil =>
    intro c hc
    rw [afterFirst] at h
    by_cases he : sub.isEmpty = true
    · rw [List.isEmpty_iff] at he
      subst he
      cases hc
    · rw [if_neg (by simpa using he)] at h
      cases h
  | cons a t ih =>
    intro c hc
    rw [afterFirst] at h
    by_cases hp : sub.isPrefixOf (a :: t) = true
    · exact ((List.isPrefixOf_iff_prefix.mp hp).sublist).mem hc
    · rw [if_neg (by simpa using hp)] at h
      exact List.mem_cons_of_mem a (ih h c hc)

/-- C5 counterexample: a payload whose `data:image/png;base64,` prefix
declares `png` but whose decoded bytes are the JPEG magic number is labeled
`png`, not `jpeg` — the declared prefix takes precedence over the magic
number. -/
theorem c5_counterexample :
    detect_image_format "data:image/png;base64,/9j/" = some "png"
    ∧ b64decode "/9j/" = some jpegMagic
    ∧ detect_image_format "data:image/png;base64,/9j/" ≠ some "jpeg" := by
  refine ⟨rfl, rfl, ?_⟩
  decide

/-- C5 (amended): a well-formed `data:image/<fmt>;base64,` prefix wins and
its declared format is returned even when the decoded bytes disagree; only
when no such prefix is present does the detector decode the leading bytes
and label the image by magic number (JPEG `FFD8FF`, PNG `89504E47...`,
GIF `474946...`, WEBP via RIFF+WEBP, BMP `424D`). -/
theorem c5_detect_image_format_amended :
    (∀ fmt payload : String, fmt.data ≠ [] → (∀ c ∈ fmt.data, c ≠ ';') →
        detect_image_format ("data:image/" ++ fmt ++ ";base64," ++ payload) = some fmt)
    ∧ (∀ s : String, (∀ c ∈ s.data, isB64Char c = true) →
        ∀ bs, b64decode ⟨s.data.take 20⟩ = some bs →
        detect_image_format s = magicOf bs)
    ∧ (∀ bs, jpegMagic.isPrefixOf bs = true → magicOf bs = some "jpeg")
    ∧ (∀ bs, pngMagic.isPrefixOf bs = true → magicOf bs = some "png")
    ∧ (∀ bs, (gif87Magic.isPrefixOf bs || gif89Magic.isPrefixOf bs) = true →
        magicOf bs = some "gif")
    ∧ (∀ bs, riffMagic.isPrefixOf bs = true → containsSub bs webpTag = true →
        magicOf bs = some "webp")
    ∧ (∀ bs, bmpMagic.isPrefixOf bs = true → magicOf bs = some "bmp")
    ∧ detect_image_format "/9j/AAAAAAAAAAAAAAAAAAAAAAAAAAAAAAAAAAAA" = some "jpeg" := by
  refine ⟨?_, ?_, ?_, ?_, ?_, ?_, ?_, rfl⟩
  · intro fmt payload hne hsemi
    have hdata : ("data:image/" ++ fmt ++ ";base64," ++ payload).data
        = "data:image/".data ++ (fmt.data ++ (";base64,".data ++ payload.data)) := by
      simp [String.data_append]
    have hpre : "data:image/".data.isPrefixOf
        ("data:image/" ++ fmt ++ ";base64," ++ payload).data = true := by
      rw [hdata]
      exact List.isPrefixOf_iff_prefix.mpr ⟨_, rfl⟩
    have hdrop : ("data:image/" ++ fmt ++ ";base64," ++ payload).data.drop 11
        = fmt.data ++ (";base64,".data ++ payload.data) := by
      rw [hdata]
      exact List.drop_left "data:image/".data _
    have hfmtTW : (fmt.data ++ (";base64,".data ++ payload.data)).takeWhile (· ≠ ';')
        = fmt.data := by
      rw [takeWhile_append_all _ fun c hc => by simpa using hsemi c hc]
      simp [List.takeWhile_cons]
    have hfmtDrop : (fmt.data ++ (";base64,".data ++ payload.data)).drop fmt.data.length
        = ";base64,".data ++ payload.data := List.drop_left _ _
    rw [detect_image_format, if_pos hpre, hdrop, dataUrlFormat]
    simp only [hfmtTW, hfmtDrop]
    rw [if_neg (by simpa using hne),
      if_pos (List.isPrefixOf_iff_prefix.mpr ⟨_, rfl⟩)]
  · intro s hb64 bs hbs
    have hnotpre : ¬ "data:image/".data.isPrefixOf s.data = true := by
      intro hp
      obtain ⟨t, ht⟩ := List.isPrefixOf_iff_prefix.mp hp
      have : ':' ∈ s.data := by
        rw [← ht]
        exact List.mem_append_left _ (by decide)
      have := hb64 ':' this
      simp [isB64Char, b64Val] at this
    have hnof : afterFirst "base64,".data s.data = none := by
      cases haf : afterFirst "base64,".data s.data with
      | none => rfl
      | some r =>
        have : ',' ∈ s.data := afterFirst_some_mem haf ',' (by decide)
        have := hb64 ',' this
        simp [isB64Char, b64Val] at this
    rw [detect_image_format, if_neg hnotpre, magicDetect]
    simp only [hnof, hbs]
  · intro bs h
    obtain ⟨t, rfl⟩ := List.isPrefixOf_iff_prefix.mp h
    simp [magicOf, jpegMagic, List.isPrefixOf]
  · intro bs h
    obtain ⟨t, rfl⟩ := List.isPrefixOf_iff_prefix.mp h
    simp [magicOf, jpegMagic, pngMagic, List.isPrefixOf]
  · intro bs h
    rcases Bool.or_eq_true_iff.mp h with h | h
    · obtain ⟨t, rfl⟩ := List.isPrefixOf_iff_prefix.mp h
      simp [magicOf, jpegMagic, pngMagic, gif87Magic, List.isPrefixOf]
    · obtain ⟨t, rfl⟩ := List.isPrefixOf_iff_prefix.mp h
      simp [magicOf, jpegMagic, pngMagic, gif87Magic, gif89Magic, List.isPrefixOf]
  · intro bs hp hc
    obtain ⟨t, rfl⟩ := List.isPrefixOf_iff_prefix.mp hp
    have hc2 : containsSub (82 :: 73 :: 70 :: 70 :: t) webpTag = true := by
      simpa [riffMagic] using hc
    simp [magicOf, jpegMagic, pngMagic, gif87Magic, gif89Magic, riffMagic,
      List.isPrefixOf, hc2]
  · intro bs h
    obtain ⟨t, rfl⟩ := List.isPrefixOf_iff_prefix.mp h
    simp [magicOf, jpegMagic, pngMagic, gif87Magic, gif89Magic, riffMagic,
      bmpMagic, List.isPrefixOf]

/-- C8: `_load_cookies` returns `None` for an absent or malformed file —
unparseable JSON or wrong shape: a document that is not a JSON object, has
no `cookies` key, or whose `cookies` value is not a list — and when every
stored cookie is expired after per-cookie filtering; and every cookie in a
successfully loaded set is non-expired: its normalised `expires` is `-1`
(absent or non-numeric) or strictly greater than the current time. -/
theorem c8_load_cookies_spec (now : Int) :
    load_cookies now .absent = none
    ∧ load_cookies now .unparseable = none
    ∧ (∀ data : Json, (∀ fields, data ≠ Json.obj fields) →
        load_cookies now (.parsed data) = none)
    ∧ (∀ fields, lookupField fields "cookies" = none →
        load_cookies now (.parsed (Json.obj fields)) = none)
    ∧ (∀ fields v, lookupField fields "cookies" = some v →
        (∀ items, v ≠ Json.arr items) →
        load_cookies now (.parsed (Json.obj fields)) = none)
    ∧ (∀ fields items, lookupField fields "cookies" = some (Json.arr items) →
        (∀ cfields, Json.obj cfields ∈ items →
          ¬ (expiresOf cfields = -1 ∨ expiresOf cfields > now)) →
        load_cookies now (.parsed (Json.obj fields)) = none)
    ∧ (∀ file result, load_cookies now file = some result →
        ∀ cf ∈ result, expiresOf cf = -1 ∨ expiresOf cf > now) := by
  refine ⟨rfl, rfl, ?_, ?_, ?_, ?_, ?_⟩
  · intro data h
    cases data with
    | obj fields => exact absurd rfl (h fields)
    | null => rfl
    | bool b => rfl
    | num n => rfl
    | str s => rfl
    | arr xs => rfl
  · intro fields h
    simp only [load_cookies, h]
  · intro fields v h hv
    cases v with
    | arr items => exact absurd rfl (hv items)
    | null => simp only [load_cookies, h]
    | bool b => simp only [load_cookies, h]
    | num n => simp only [load_cookies, h]
    | str s => simp only [load_cookies, h]
    | obj fs => simp only [load_cookies, h]
  · intro fields items hlk hall
    simp only [load_cookies, hlk]
    have hnil : (items.filterMap fun item =>
        match item with
        | Json.obj cfields =>
          if expiresOf cfields = -1 ∨ expiresOf cfields > now then some cfields
          else none
        | _ => none) = [] := by
      rw [List.filterMap_eq_nil_iff]
      intro item hit
      cases item with
      | obj cfields => exact if_neg (hall cfields hit)
      | null => rfl
      | bool b => rfl
      | num n => rfl
      | str s => rfl
      | arr xs => rfl
    simp [hnil]
  · intro file result hsome cf hcf
    cases file with
    | absent => cases hsome
    | unparseable => cases hsome
    | parsed data =>
      cases data with
      | null => cases hsome
      | bool b => cases hsome
      | num n => cases hsome
      | str s => cases hsome
      | arr xs => cases hsome
      | obj fields =>
        simp only [load_cookies] at hsome
        split at hsome
        · cases hsome
        · split at hsome
          · cases hsome
          · injection hsome with hres
            subst hres
            obtain ⟨item, hitem, hf⟩ := List.mem_filterMap.mp hcf
            cases item with
            | null => cases hf
            | bool b => cases hf
            | num n => cases hf
            | str s => cases hf
            | arr xs => cases hf
            | obj cfields =>
              have hf2 : (if expiresOf cfields = -1 ∨ expiresOf cfields > now
                  then some cfields else none) = some cf := hf
              by_cases hcond : expiresOf cfields = -1 ∨ expiresOf cfields > now
              · rw [if_pos hcond] at hf2
                injection hf2 with hcf2
                subst hcf2
                exact hcond
              · rw [if_neg hcond] at hf2
                cases hf2
        · cases hsome

theorem reset_eq (st : ScraperState) :
    reset_captcha_counter st = { st with captcha_failure_count := 0 } := by
  rw [reset_captcha_counter]
  split
  · rfl
  · cases st
    simp_all

theorem applyEv_restarts (sid : List Char) (st : ScraperState) (ev : ScrapeEv) :
    (applyEv sid st ev).restarts = st.restarts := by
  cases ev <;> simp [applyEv, reset_eq, increment_captcha_failure]

theorem runEvents_restarts (sid : List Char) (evs : List ScrapeEv) :
    ∀ st : ScraperState, (runEvents sid st evs).1.restarts = st.restarts := by
  induction evs with
  | nil => intro st; rfl
  | cons ev rest ih =>
    intro st
    cases ev with
    | raised m => rfl
    | netCapture s v => exact (ih _).trans (applyEv_restarts sid st _)
    | imgCapture s v => exact (ih _).trans (applyEv_restarts sid st _)
    | captchaSolved => exact (ih _).trans (applyEv_restarts sid st _)
    | captchaFailed => exact (ih _).trans (applyEv_restarts sid st _)

theorem scrapeSingle_restarts (sid : List Char) (sc : ScrapeScript)
    (st : ScraperState) : (scrape_single_store sid sc st).2.restarts = st.restarts :=
  runEvents_restarts sid sc.events (clearStore sid st)

theorem runAttempts_restarts (sid : List Char) (scripts : List ScrapeScript) :
    ∀ st : ScraperState, (runAttempts sid scripts st).1.restarts = st.restarts := by
  induction scripts with
  | nil => intro st; rfl
  | cons sc rest ih =>
    intro st
    simp only [runAttempts]
    by_cases hs : ((scrape_single_store sid sc st).1.status == "success") = true
    · rw [if_pos hs]
      simp only [reset_eq]
      exact scrapeSingle_restarts sid sc st
    · rw [if_neg hs]
      cases rest with
      | nil => exact scrapeSingle_restarts sid sc st
      | cons a b => exact (ih _).trans (scrapeSingle_restarts sid sc st)

theorem runAttempts_success_counter (sid : List Char) (scripts : List ScrapeScript) :
    ∀ (st : ScraperState) (res : ScrapeResult),
      (runAttempts sid scripts st).2 = some res → res.status = "success" →
      (runAttempts sid scripts st).1.captcha_failure_count = 0 := by
  induction scripts with
  | nil => intro st res h; cases h
  | cons sc rest ih =>
    intro st res h hsucc
    simp only [runAttempts] at h ⊢
    by_cases hs : ((scrape_single_store sid sc st).1.status == "success") = true
    · rw [if_pos hs]
      simp only [reset_eq]
    · rw [if_neg hs] at h ⊢
      cases rest with
      | nil =>
        injection h with h1
        subst h1
        rw [hsucc] at hs
        exact absurd (by decide) hs
      | cons a b => exact ih _ res h hsucc

/-- C2: the orchestrator increments its CAPTCHA-failure counter on each
solver failure; when the counter reaches `max_captcha_attempts`, the
session check before the next target triggers exactly one browser restart
(fresh browser+context) which resets the counter to zero, and no restart
happens below the threshold or during the target's attempts; a successful
solve resets the counter, and a successful scrape leaves the counter at
zero. -/
theorem c2_captcha_restart_policy (st : ScraperState) (store_id : List Char)
    (scripts : List ScrapeScript) :
    ((sessionCheckPhase st).restarts = st.restarts
        + (if st.max_captcha_attempts ≤ st.captcha_failure_count then 1 else 0))
    ∧ (st.max_captcha_attempts ≤ st.captcha_failure_count →
        (sessionCheckPhase st).captcha_failure_count = 0
        ∧ (sessionCheckPhase st).restarts = st.restarts + 1
        ∧ (sessionCheckPhase st).generation = st.generation + 1)
    ∧ (st.captcha_failure_count < st.max_captcha_attempts → sessionCheckPhase st = st)
    ∧ ((processTarget store_id scripts st).1.restarts = (sessionCheckPhase st).restarts)
    ∧ ((applyEv store_id st ScrapeEv.captchaFailed).captcha_failure_count
        = st.captcha_failure_count + 1)
    ∧ ((applyEv store_id st ScrapeEv.captchaSolved).captcha_failure_count = 0)
    ∧ (∀ res, (processTarget store_id scripts st).2 = some res →
        res.status = "success" →
        (processTarget store_id scripts st).1.captcha_failure_count = 0) := by
  refine ⟨?_, ?_, ?_, runAttempts_restarts store_id scripts _, rfl, ?_, ?_⟩
  · by_cases h : st.max_captcha_attempts ≤ st.captcha_failure_count
    · simp [sessionCheckPhase, should_restart_session, restart_browser_session, h]
    · simp [sessionCheckPhase, should_restart_session, h]
  · intro h
    refine ⟨?_, ?_, ?_⟩ <;>
      simp [sessionCheckPhase, should_restart_session, restart_browser_session, h]
  · intro h
    have h2 : ¬ st.max_captcha_attempts ≤ st.captcha_failure_count := by omega
    simp [sessionCheckPhase, should_restart_session, h2]
  · simp [applyEv, reset_eq]
  · intro res h hsucc
    exact runAttempts_success_counter store_id scripts _ res h hsucc

/-- C3: the code, not the claim — when an exception occurs mid-scrape after
two images and an API response were captured, `_scrape_single_store`
catches it and returns a result with status `"error"` whose `images` and
`network_data` are EMPTY (they are only filled on the 200-success path),
even though the captures are still present in the scraper's tables; the
batch continues to the next target.  The outer preservation handler in
`scrape_store_credentials` (which copies captured images into an error
result) is unreachable for such exceptions because they are already caught
inside `_scrape_single_store`. -/
theorem c3_partial_capture_lost :
    (scrape_single_store "12".data c3Script freshState).1.status = "error"
    ∧ (scrape_single_store "12".data c3Script freshState).1.error
        = some "credential parse failed"
    ∧ (scrape_single_store "12".data c3Script freshState).1.images = []
    ∧ (scrape_single_store "12".data c3Script freshState).1.network_data = []
    ∧ (scrape_single_store "12".data c3Script freshState).2.image_data.map Prod.snd
        = [1, 2]
    ∧ (scrape_single_store "12".data c3Script freshState).2.network_data.map Prod.snd
        = [3]
    ∧ (scrape_store_credentials
        [("12".data, [c3Script]), ("34".data, [⟨[], 200⟩])] freshState).2.map
          ScrapeResult.status
        = ["error", "success"] := by
  decide

theorem prefix_incomparable_not_both {s1 s2 k : List Char}
    (h1 : ¬ s1 <+: s2) (h2 : ¬ s2 <+: s1) :
    ¬ (startsKey s1 k = true ∧ startsKey s2 k = true) := by
  rintro ⟨ha, hb⟩
  rcases List.prefix_or_prefix_of_prefix (List.isPrefixOf_iff_prefix.mp ha)
      (List.isPrefixOf_iff_prefix.mp hb) with h | h
  exacts [h1 h, h2 h]

theorem key_not_s2 {s1 s2 : List Char} (h1 : ¬ s1 <+: s2) (h2 : ¬ s2 <+: s1)
    (suf : List Char) : startsKey s2 (s1 ++ suf) = false := by
  cases h : startsKey s2 (s1 ++ suf) with
  | false => rfl
  | true =>
    have hp2 : s2 <+: s1 ++ suf := List.isPrefixOf_iff_prefix.mp h
    have hp1 : s1 <+: s1 ++ suf := ⟨suf, rfl⟩
    rcases List.prefix_or_prefix_of_prefix hp1 hp2 with hc | hc
    · exact absurd hc h1
    · exact absurd hc h2

theorem mapOverwrite_filter {s2 k : List Char} (v : Nat) (hk : startsKey s2 k = false)
    (d : List (List Char × Nat)) :
    (d.map fun kv => if kv.1 == k then (k, v) else kv).filter
        (fun kv => startsKey s2 kv.1)
      = d.filter fun kv => startsKey s2 kv.1 := by
  induction d with
  | nil => rfl
  | cons kv rest ih =>
    simp only [List.map_cons]
    by_cases hkv : (kv.1 == k) = true
    · have hkeq : kv.1 = k := by simpa using hkv
      rw [if_pos hkv, List.filter_cons, List.filter_cons, hkeq]
      rw [if_neg (by simp [hk]), if_neg (by simp [hk])]
      exact ih
    · rw [if_neg hkv, List.filter_cons, List.filter_cons]
      by_cases hp : startsKey s2 kv.1 = true
      · rw [if_pos hp, if_pos hp]
        exact congrArg (kv :: ·) ih
      · rw [if_neg hp, if_neg hp]
        exact ih

theorem dictAssign_s2_filter {s2 k : List Char} (v : Nat)
    (hk : startsKey s2 k = false) (d : List (List Char × Nat)) :
    (dictAssign d k v).filter (fun kv => startsKey s2 kv.1)
      = d.filter fun kv => startsKey s2 kv.1 := by
  rw [dictAssign]
  split
  · exact mapOverwrite_filter v hk d
  · rw [List.filter_append]
    simp [hk]

theorem runEvents_s2_filters {s1 s2 : List Char}
    (h1 : ¬ s1 <+: s2) (h2 : ¬ s2 <+: s1) (evs : List ScrapeEv) :
    ∀ st : ScraperState,
      ((runEvents s1 st evs).1.network_data.filter (fun kv => startsKey s2 kv.1)
          = st.network_data.filter fun kv => startsKey s2 kv.1)
      ∧ ((runEvents s1 st evs).1.image_data.filter (fun kv => startsKey s2 kv.1)
          = st.image_data.filter fun kv => startsKey s2 kv.1) := by
  induction evs with
  | nil => intro st; exact ⟨rfl, rfl⟩
  | cons ev rest ih =>
    intro st
    cases ev with
    | raised m => exact ⟨rfl, rfl⟩
    | netCapture suf v =>
      refine ⟨((ih _).1).trans ?_, (ih _).2⟩
      exact dictAssign_s2_filter v (key_not_s2 h1 h2 suf) _
    | imgCapture suf v =>
      refine ⟨(ih _).1, ((ih _).2).trans ?_⟩
      exact dictAssign_s2_filter v (key_not_s2 h1 h2 suf) _
    | captchaSolved =>
      have hre : applyEv s1 st ScrapeEv.captchaSolved
          = { st with captcha_failure_count := 0 } := reset_eq st
      exact ⟨((ih _).1).trans (by rw [hre]), ((ih _).2).trans (by rw [hre])⟩
    | captchaFailed => exact ⟨(ih _).1, (ih _).2⟩

theorem clearStore_s2_filter {s1 s2 : List Char}
    (h1 : ¬ s1 <+: s2) (h2 : ¬ s2 <+: s1) (st : ScraperState) :
    ((clearStore s1 st).network_data.filter (fun kv => startsKey s2 kv.1)
        = st.network_data.filter fun kv => startsKey s2 kv.1)
    ∧ ((clearStore s1 st).image_data.filter (fun kv => startsKey s2 kv.1)
        = st.image_data.filter fun kv => startsKey s2 kv.1) := by
  constructor <;>
  · rw [clearStore]
    rw [List.filter_filter]
    refine List.filter_congr fun kv _ => ?_
    cases hs2 : startsKey s2 kv.1 with
    | false => simp
    | true =>
      cases hs1 : startsKey s1 kv.1 with
      | false => simp [hs1]
      | true => exact absurd ⟨hs1, hs2⟩ (prefix_incomparable_not_both h1 h2)

/-- C10: per-store bookkeeping selects and clears entries by
`key.startswith(store_id)`.  For store ids neither of which is a prefix of
the other, scraping one neither deletes nor returns the other's entries;
but when `s1` is a proper prefix of `s2`, scraping `s1` deletes `s2`'s
stale entries and `s1`'s result can include captures keyed under `s2`. -/
theorem c10_prefix_key_bookkeeping :
    (∀ s1 s2 : List Char, ¬ s1 <+: s2 → ¬ s2 <+: s1 →
      ∀ (sc : ScrapeScript) (st : ScraperState),
        ((scrape_single_store s1 sc st).2.network_data.filter
            (fun kv => startsKey s2 kv.1)
          = st.network_data.filter fun kv => startsKey s2 kv.1)
        ∧ ((scrape_single_store s1 sc st).2.image_data.filter
            (fun kv => startsKey s2 kv.1)
          = st.image_data.filter fun kv => startsKey s2 kv.1)
        ∧ (∀ kv ∈ (scrape_single_store s1 sc st).1.network_data,
            startsKey s2 kv.1 = false)
        ∧ (∀ kv ∈ (scrape_single_store s1 sc st).1.images,
            startsKey s2 kv.1 = false))
    ∧ "12".data <+: "12_api".data
    ∧ "12".data ≠ "12_api".data
    ∧ startsKey "12_api".data "12_api_100".data = true
    ∧ (scrape_single_store "12".data c10Script c10State).2.network_data
        = [("12_api_200".data, 9)]
    ∧ (scrape_single_store "12".data c10Script c10State).1.network_data
        = [("12_api_200".data, 9)]
    ∧ startsKey "12_api".data "12_api_200".data = true := by
  refine ⟨?_, ⟨"_api".data, rfl⟩, by decide, by decide, by decide, by decide, by decide⟩
  intro s1 s2 h1 h2 sc st
  have hfil := runEvents_s2_filters h1 h2 sc.events (clearStore s1 st)
  have hclr := clearStore_s2_filter h1 h2 st
  refine ⟨hfil.1.trans hclr.1, hfil.2.trans hclr.2, ?_, ?_⟩
  · intro kv hkv
    have hres : (scrape_single_store s1 sc st).1
        = scrapeResultOf s1 sc.status (runEvents s1 (clearStore s1 st) sc.events).1
            (runEvents s1 (clearStore s1 st) sc.events).2 := rfl
    rw [hres] at hkv
    cases hr : (runEvents s1 (clearStore s1 st) sc.events).2 with
    | some msg =>
      rw [hr] at hkv
      cases hkv
    | none =>
      rw [hr] at hkv
      by_cases hst : sc.status = 200
      · rw [scrapeResultOf, if_pos hst] at hkv
        have hmem := List.mem_filter.mp hkv
        cases hs2 : startsKey s2 kv.1 with
        | false => rfl
        | true => exact absurd ⟨hmem.2, hs2⟩ (prefix_incomparable_not_both h1 h2)
      · rw [scrapeResultOf, if_neg hst] at hkv
        cases hkv
  · intro kv hkv
    have hres : (scrape_single_store s1 sc st).1
        = scrapeResultOf s1 sc.status (runEvents s1 (clearStore s1 st) sc.events).1
            (runEvents s1 (clearStore s1 st) sc.events).2 := rfl
    rw [hres] at hkv
    cases hr : (runEvents s1 (clearStore s1 st) sc.events).2 with
    | some msg =>
      rw [hr] at hkv
      cases hkv
    | none =>
      rw [hr] at hkv
      by_cases hst : sc.status = 200
      · rw [scrapeResultOf, if_pos hst] at hkv
        have hmem := List.mem_filter.mp hkv
        cases hs2 : startsKey s2 kv.1 with
        | false => rfl
        | true => exact absurd ⟨hmem.2, hs2⟩ (prefix_incomparable_not_both h1 h2)
      · rw [scrapeResultOf, if_neg hst] at hkv
        cases hkv

/-- Witness for C1 at concrete inputs, discharging the determinism
hypotheses. -/
theorem c1_generate_signature_spec_witness :
    generate_signature "tok" "123" "12574478" "payload"
        = md5_hash "tok&123&12574478&payload"
      ∧ (generate_signature "tok" "123" "12574478" "payload").length = 32
      ∧ generate_signature "tok" "123" "12574478" "payload"
        = generate_signature "tok" "123" "12574478" "payload" :=
  ⟨(c1_generate_signature_spec "tok" "123" "12574478" "payload").1,
   (c1_generate_signature_spec "tok" "123" "12574478" "payload").2.1,
   (c1_generate_signature_spec "tok" "123" "12574478" "payload").2.2.2
     "tok" "123" "12574478" "payload" rfl rfl rfl rfl⟩

end AliScraper
